import Mathlib

/-!
Verification of `pkg/announce/github/options.go` from the k8s-release
repository: the `Options` configuration record for building a GitHub
release page, its builder methods, `Validate`, `ParseSubstitutions`,
`SetRepository`, and `ReadTemplate`.

Go strings are embedded as `List Char`; the Go `map[string]string` is
embedded as an association list with key-unique insert; Go errors are
embedded as `GoErr` (either `errors.New` messages or `fmt.Errorf`-wrapped
errors carrying a cause).  Methods that mutate the receiver are embedded
as functions returning the updated record together with an optional error,
matching Go's in-place mutation plus error return.
-/

/-- Go strings, embedded as lists of characters. -/
abbrev Str := List Char

instance {ε α : Type} [DecidableEq ε] [DecidableEq α] :
    DecidableEq (Except ε α) := fun a b =>
  match a, b with
  | .error e, .error f =>
    if h : e = f then isTrue (congrArg Except.error h)
    else isFalse (fun hh => h (Except.error.inj hh))
  | .error _, .ok _ => isFalse (fun hh => Except.noConfusion hh)
  | .ok _, .error _ => isFalse (fun hh => Except.noConfusion hh)
  | .ok x, .ok y =>
    if h : x = y then isTrue (congrArg Except.ok h)
    else isFalse (fun hh => h (Except.ok.inj hh))

/-- Go error values: `errors.New msg` or a `fmt.Errorf("msg: %w", cause)`
wrapping that carries the underlying cause. -/
inductive GoErr where
  | simple (msg : Str)
  | wrapped (msg : Str) (cause : GoErr)
deriving DecidableEq

/-- The rendered error message: a wrapped error prints its own message,
a colon and a space, then the cause, as `fmt.Errorf("...: %w", err)` does. -/
def GoErr.message : GoErr → Str
  | .simple msg => msg
  | .wrapped msg cause => msg ++ ": ".toList ++ cause.message

/-- Key-unique insert into the association list embedding of the Go
`map[string]string`: replace the value of an existing key, otherwise
append the new binding. -/
def subInsert (m : List (Str × Str)) (k v : Str) : List (Str × Str) :=
  match m with
  | [] => [(k, v)]
  | (k', v') :: rest =>
    if k' = k then (k, v) :: rest else (k', v') :: subInsert rest k v

/-- Lookup in the association list embedding of the Go map. -/
def subFind (m : List (Str × Str)) (k : Str) : Option Str :=
  match m with
  | [] => none
  | (k', v') :: rest => if k' = k then some v' else subFind rest k

/-- `strings.SplitN s sep 2` for a one-character separator, in the shape
used by the source: `none` when the separator does not occur (the Go call
returns a one-element slice), `some (before, after)` when it does, where
`before` is the text before the first occurrence and `after` everything
after it. -/
def splitFirst (c : Char) : Str → Option (Str × Str)
  | [] => none
  | a :: rest =>
    if a = c then some ([], rest)
    else match splitFirst c rest with
      | none => none
      | some kv => some (a :: kv.1, kv.2)

/-- The `Options` data for building the release page, from
`pkg/announce/github/options.go`. -/
structure Options where
  releaseType : Str
  assetFiles : List Str
  tag : Str
  name : Str
  owner : Str
  repo : Str
  noMock : Bool
  draft : Bool
  updateIfReleaseExists : Bool
  pageTemplate : Str
  releaseNotesFile : Str
  substitutions : List (Str × Str)
deriving DecidableEq

/-- `NewOptions` returns `&Options{}`: the zero value of every field. -/
def NewOptions : Options :=
  ⟨[], [], [], [], [], [], false, false, false, [], [], []⟩

def Options.WithReleaseType (o : Options) (releaseType : Str) : Options :=
  { o with releaseType := releaseType }

def Options.WithAssetFiles (o : Options) (assetFiles : List Str) : Options :=
  { o with assetFiles := assetFiles }

def Options.WithTag (o : Options) (tag : Str) : Options :=
  { o with tag := tag }

def Options.WithName (o : Options) (name : Str) : Options :=
  { o with name := name }

def Options.WithOwner (o : Options) (owner : Str) : Options :=
  { o with owner := owner }

def Options.WithRepo (o : Options) (repo : Str) : Options :=
  { o with repo := repo }

def Options.WithNoMock (o : Options) (noMock : Bool) : Options :=
  { o with noMock := noMock }

def Options.WithDraft (o : Options) (draft : Bool) : Options :=
  { o with draft := draft }

def Options.WithUpdateIfReleaseExists (o : Options) (u : Bool) : Options :=
  { o with updateIfReleaseExists := u }

def Options.WithPageTemplate (o : Options) (pageTemplate : Str) : Options :=
  { o with pageTemplate := pageTemplate }

def Options.WithReleaseNotesFile (o : Options) (releaseNotesFile : Str) : Options :=
  { o with releaseNotesFile := releaseNotesFile }

def Options.WithSubstitutions (o : Options) (substitutions : List (Str × Str)) : Options :=
  { o with substitutions := substitutions }

/-- Error of `Validate` when the tag is empty. -/
def msgNoTag : Str := "cannot update github page without a tag".toList

/-- Error of `Validate` when the repository is empty. -/
def msgNoRepo : Str := "cannot update github page, repository not defined".toList

/-- Error of `Validate` when the organization is empty. -/
def msgNoOwner : Str := "cannot update github page, github organization not defined".toList

/-- `Options.Validate`: checks tag, then repo, then owner for emptiness,
returning the first matching error, `none` when all are non-empty.  The
source does not assign any field. -/
def Options.Validate (o : Options) : Option GoErr :=
  if o.tag = [] then some (GoErr.simple msgNoTag)
  else if o.repo = [] then some (GoErr.simple msgNoRepo)
  else if o.owner = [] then some (GoErr.simple msgNoOwner)
  else none

/-- Message stem of the malformed-substitution error: the source returns
`errors.New("substitution value not well formed: " + sString)`. -/
def msgMalformed : Str := "substitution value not well formed: ".toList

/-- The loop body of `ParseSubstitutions`: walk the input strings, split
each on the first `:` (`strings.SplitN(sString, ":", 2)`), reject a string
with no `:` or an empty key, otherwise insert the pair and continue; the
accumulated map at the point of an early return is returned alongside the
error, as the Go loop mutates `o.substitutions` in place. -/
def ParseSubsLoop (m : List (Str × Str)) : List Str → List (Str × Str) × Option GoErr
  | [] => (m, none)
  | s :: rest =>
    match splitFirst ':' s with
    | none => (m, some (GoErr.simple (msgMalformed ++ s)))
    | some kv =>
      if kv.1 = [] then (m, some (GoErr.simple (msgMalformed ++ s)))
      else ParseSubsLoop (subInsert m kv.1 kv.2) rest

/-- `Options.ParseSubstitutions`: reset `o.substitutions` to the empty map,
then run the loop; the record always carries whatever the loop accumulated,
also on an early error return. -/
def Options.ParseSubstitutions (o : Options) (subs : List Str) : Options × Option GoErr :=
  let r := ParseSubsLoop [] subs
  ({ o with substitutions := r.1 }, r.2)

/-- Message of the wrapping error of `SetRepository`:
`fmt.Errorf("parsing repository slug: %w", err)`. -/
def msgSlug : Str := "parsing repository slug".toList

/-- `Options.SetRepository`: delegate to the external slug parser
(`git.ParseRepoSlug`, passed here as a function argument since it lives in
the external `sigs.k8s.io/release-sdk` module); wrap a parse error and
leave the record unchanged, otherwise assign `owner` and `repo`. -/
def Options.SetRepository (ParseRepoSlug : Str → Except GoErr (Str × Str))
    (o : Options) (repoSlug : Str) : Options × Option GoErr :=
  match ParseRepoSlug repoSlug with
  | .error err => (o, some (GoErr.wrapped msgSlug err))
  | .ok orgRepo => ({ o with owner := orgRepo.1, repo := orgRepo.2 }, none)

/-- Message of the wrapping error of `ReadTemplate`:
`fmt.Errorf("reading page template text: %w", err)`. -/
def msgTemplate : Str := "reading page template text".toList

/-- `Options.ReadTemplate`: with an empty path, clear `pageTemplate` and
succeed; otherwise read the file (`os.ReadFile`, passed here as a function
argument standing for the file system), wrap a read error and leave the
record unchanged, or store the file contents as `pageTemplate`.  The
`logrus.Infof` line is an external log side effect with no field change. -/
def Options.ReadTemplate (ReadFile : Str → Except GoErr Str)
    (o : Options) (templatePath : Str) : Options × Option GoErr :=
  if templatePath = [] then ({ o with pageTemplate := [] }, none)
  else match ReadFile templatePath with
    | .error err => (o, some (GoErr.wrapped msgTemplate err))
    | .ok templateData => ({ o with pageTemplate := templateData }, none)

/-- Modelled from the spec: `git.ParseRepoSlug` belongs to the external
`sigs.k8s.io/release-sdk` module and is not part of this repository.  The
spec says the slug parser takes a string in `org/repo` form and returns
`(org, repo)` or a parse error, exact grammar owned by that collaborator;
this model accepts exactly one `/` with non-empty halves.  It is used only
to instantiate witnesses; the theorems about `SetRepository` hold for every
parser. -/
def ParseRepoSlugSpec (slug : Str) : Except GoErr (Str × Str) :=
  match splitFirst '/' slug with
  | none => .error (GoErr.simple ("invalid repository slug: ".toList ++ slug))
  | some orgRepo =>
    if orgRepo.1 = [] ∨ orgRepo.2 = [] ∨ '/' ∈ orgRepo.2 then
      .error (GoErr.simple ("invalid repository slug: ".toList ++ slug))
    else .ok orgRepo

/-- A sample file system used only to instantiate witnesses: one existing
template file, every other path failing as `os.ReadFile` does on a missing
file.  The theorems about `ReadTemplate` hold for every file system. -/
def FsEx : Str → Except GoErr Str := fun p =>
  if p = "/path/to/existing/file.tmpl".toList then .ok "template content".toList
  else .error (GoErr.simple ("open ".toList ++ p ++ ": no such file or directory".toList))

/-- Spec-side well-formedness of one substitution string: it contains a
`:` and the part before the first `:` is non-empty. -/
def wellFormedSub (s : Str) : Bool :=
  match splitFirst ':' s with
  | none => false
  | some kv => if kv.1 = [] then false else true

/-- Spec-side construction of the substitutions map from an accumulator:
in list order, split each string at its first `:` and insert the pair,
later duplicate keys overwriting earlier ones. -/
def BuildSubsFrom (m : List (Str × Str)) : List Str → List (Str × Str)
  | [] => m
  | s :: rest =>
    match splitFirst ':' s with
    | none => BuildSubsFrom m rest
    | some kv => BuildSubsFrom (subInsert m kv.1 kv.2) rest

/-- Spec-side substitutions map of an input list, starting from the empty
map (any prior mapping discarded). -/
def BuildSubs (subs : List Str) : List (Str × Str) :=
  BuildSubsFrom [] subs

/-- Spec-side value a key should carry after parsing: the value of the
last string in the list whose key part equals `k`. -/
def LastValue : List Str → Str → Option Str
  | [], _ => none
  | s :: rest, k =>
    match LastValue rest k with
    | some v => some v
    | none =>
      match splitFirst ':' s with
      | none => none
      | some kv => if kv.1 = k then some kv.2 else none

/-- A sample valid options record used only to instantiate witnesses. -/
def OptsEx : Options :=
  ((NewOptions.WithTag "v1.0.0".toList).WithOwner "o".toList).WithRepo "r".toList

/-- A sample options record with a prior substitutions mapping, used only
to instantiate witnesses. -/
def OptsSubsEx : Options :=
  OptsEx.WithSubstitutions [("OLD".toList, "X".toList)]

/-- Sample substitution input used only to instantiate witnesses. -/
def SubsEx : List Str := ["KEY:VALUE".toList]

/-- Sample repository slug used only to instantiate witnesses. -/
def SlugEx : Str := "kubernetes/release".toList

/-- Sample template path used only to instantiate witnesses. -/
def PathEx : Str := "/path/to/existing/file.tmpl".toList

/-! ### Helper lemmas -/

/-- Lookup after key-unique insert: the inserted key returns the new
value, every other key is unaffected. -/
theorem subFind_subInsert (m : List (Str × Str)) (k v k' : Str) :
    subFind (subInsert m k v) k' = if k = k' then some v else subFind m k' := by
  induction m with
  | nil => simp [subInsert, subFind]
  | cons p rest ih =>
    obtain ⟨a, b⟩ := p
    simp only [subInsert]
    by_cases hak : a = k
    · subst hak
      simp only [if_pos rfl, subFind]
      by_cases h1 : a = k' <;> simp [h1]
    · simp only [if_neg hak, subFind, ih]
      by_cases h1 : a = k' <;> by_cases h2 : k = k' <;> simp_all

/-- On a list of well-formed substitution strings the parse loop succeeds
and computes exactly the spec-side map construction. -/
theorem ParseSubsLoop_wf (subs : List Str) :
    ∀ m, (∀ s ∈ subs, wellFormedSub s = true) →
      ParseSubsLoop m subs = (BuildSubsFrom m subs, none) := by
  induction subs with
  | nil => intro m _; rfl
  | cons s rest ih =>
    intro m h
    have hs := h s (List.mem_cons_self _ _)
    cases hsp : splitFirst ':' s with
    | none => simp [wellFormedSub, hsp] at hs
    | some kv =>
      have hk : kv.1 ≠ [] := by
        intro hk
        simp [wellFormedSub, hsp, hk] at hs
      simp only [ParseSubsLoop, BuildSubsFrom, hsp, if_neg hk]
      exact ih _ (fun t ht => h t (List.mem_cons_of_mem _ ht))

/-- Lookup in the spec-side map construction: the last value stored for
the key wins, and absent keys fall through to the accumulator. -/
theorem subFind_BuildSubsFrom (subs : List Str) :
    ∀ m k, subFind (BuildSubsFrom m subs) k =
      match LastValue subs k with
      | some v => some v
      | none => subFind m k := by
  induction subs with
  | nil => intro m k; rfl
  | cons s rest ih =>
    intro m k
    cases hsp : splitFirst ':' s with
    | none =>
      simp only [BuildSubsFrom, LastValue, hsp, ih]
      cases LastValue rest k <;> rfl
    | some kv =>
      simp only [BuildSubsFrom, LastValue, hsp, ih, subFind_subInsert]
      cases LastValue rest k with
      | some v => rfl
      | none =>
        by_cases hkk : kv.1 = k <;> simp [hkk]

/-- The parse loop on a list whose first malformed element is `bad`:
it stops there with the malformed-substitution error, keeping exactly the
entries accumulated from the well-formed elements before `bad`. -/
theorem ParseSubsLoop_err (pre : List Str) :
    ∀ m (rest : List Str) (bad : Str),
      (∀ s ∈ pre, wellFormedSub s = true) → wellFormedSub bad = false →
      ParseSubsLoop m (pre ++ bad :: rest) =
        (BuildSubsFrom m pre, some (GoErr.simple (msgMalformed ++ bad))) := by
  induction pre with
  | nil =>
    intro m rest bad _ hbad
    cases hsp : splitFirst ':' bad with
    | none => simp [ParseSubsLoop, hsp, BuildSubsFrom]
    | some kv =>
      have hk : kv.1 = [] := by
        by_contra hk
        simp [wellFormedSub, hsp, hk] at hbad
      simp [ParseSubsLoop, hsp, hk, BuildSubsFrom]
  | cons s pre' ih =>
    intro m rest bad h hbad
    have hs := h s (List.mem_cons_self _ _)
    cases hsp : splitFirst ':' s with
    | none => simp [wellFormedSub, hsp] at hs
    | some kv =>
      have hk : kv.1 ≠ [] := by
        intro hk
        simp [wellFormedSub, hsp, hk] at hs
      simp only [List.cons_append, ParseSubsLoop, BuildSubsFrom, hsp, if_neg hk]
      exact ih _ rest bad (fun t ht => h t (List.mem_cons_of_mem _ ht)) hbad

/-- Splitting `k ++ [c]` at the first `c` when `k` itself is `c`-free
yields the pair `(k, [])`. -/
theorem splitFirst_append_sep (c : Char) (k : Str) (h : c ∉ k) :
    splitFirst c (k ++ [c]) = some (k, []) := by
  induction k with
  | nil => simp [splitFirst]
  | cons a rest ih =>
    have ha : a ≠ c := fun e => h (e ▸ List.mem_cons_self _ _)
    have ih' := ih (fun hm => h (List.mem_cons_of_mem _ hm))
    simp [splitFirst, ha, ih']

/-! ### Claim theorems -/

/-- C1: `Validate` checks fields in the fixed order tag, repo, owner: it
fails with the missing-tag error exactly when `tag` is empty; otherwise
with the missing-repository error exactly when `repo` is empty; otherwise
with the missing-organization error exactly when `owner` is empty; and it
succeeds exactly when all three are non-empty, so only the first missing
field in that priority order is reported. -/
theorem Validate_order (o : Options) :
    (o.Validate = some (GoErr.simple msgNoTag) ↔ o.tag = []) ∧
    (o.Validate = some (GoErr.simple msgNoRepo) ↔ o.tag ≠ [] ∧ o.repo = []) ∧
    (o.Validate = some (GoErr.simple msgNoOwner) ↔
      o.tag ≠ [] ∧ o.repo ≠ [] ∧ o.owner = []) ∧
    (o.Validate = none ↔ o.tag ≠ [] ∧ o.repo ≠ [] ∧ o.owner ≠ []) := by
  have h12 : msgNoTag ≠ msgNoRepo := by decide
  have h13 : msgNoTag ≠ msgNoOwner := by decide
  have h23 : msgNoRepo ≠ msgNoOwner := by decide
  unfold Options.Validate
  split_ifs with h1 h2 h3 <;> simp_all <;> decide

/-- C2: on an input list in which every element has a `:` with a
non-empty key part, `ParseSubstitutions` succeeds, and the resulting
substitutions mapping discards the prior mapping and is built in list
order by splitting each element at its first `:` (the value may contain
`:`), later duplicate keys overwriting earlier ones. -/
theorem ParseSubstitutions_wellFormed (o : Options) (subs : List Str)
    (h : ∀ s ∈ subs, wellFormedSub s = true) :
    (o.ParseSubstitutions subs).2 = none ∧
    (o.ParseSubstitutions subs).1.substitutions = BuildSubs subs ∧
    ∀ k, subFind (o.ParseSubstitutions subs).1.substitutions k = LastValue subs k := by
  have hl := ParseSubsLoop_wf subs [] h
  refine ⟨?_, ?_, ?_⟩
  · simp [Options.ParseSubstitutions, hl]
  · simp [Options.ParseSubstitutions, hl, BuildSubs]
  · intro k
    simp only [Options.ParseSubstitutions, hl]
    have := subFind_BuildSubsFrom subs [] k
    simp only [subFind] at this
    simp only [this]
    cases LastValue subs k <;> rfl

/-- Witness for C2: the spec's example input
`["KEY:VALUE", "OTHER:A:B"]` parses into the mapping
`{"KEY":"VALUE", "OTHER":"A:B"}`, the second value split at the first
colon only. -/
theorem ParseSubstitutions_wellFormed_witness :
    (NewOptions.ParseSubstitutions ["KEY:VALUE".toList, "OTHER:A:B".toList]).2 = none ∧
    (NewOptions.ParseSubstitutions
      ["KEY:VALUE".toList, "OTHER:A:B".toList]).1.substitutions =
      [("KEY".toList, "VALUE".toList), ("OTHER".toList, "A:B".toList)] ∧
    subFind (NewOptions.ParseSubstitutions
      ["KEY:VALUE".toList, "OTHER:A:B".toList]).1.substitutions "OTHER".toList =
      some "A:B".toList :=
  ⟨(ParseSubstitutions_wellFormed NewOptions
      ["KEY:VALUE".toList, "OTHER:A:B".toList] (by decide)).1,
   by decide, by decide⟩

/-- C3: on an input list whose first malformed element (no `:`, or empty
key part) is `bad`, `ParseSubstitutions` fails with a
malformed-substitution error whose message ends in the offending raw
string, after discarding the prior mapping; exactly the entries from the
elements before `bad` remain in the substitutions field. -/
theorem ParseSubstitutions_malformed (o : Options) (pre rest : List Str) (bad : Str)
    (hpre : ∀ s ∈ pre, wellFormedSub s = true) (hbad : wellFormedSub bad = false) :
    (o.ParseSubstitutions (pre ++ bad :: rest)).2 =
      some (GoErr.simple (msgMalformed ++ bad)) ∧
    List.IsSuffix bad (msgMalformed ++ bad) ∧
    (o.ParseSubstitutions (pre ++ bad :: rest)).1.substitutions = BuildSubs pre := by
  have hl := ParseSubsLoop_err pre [] rest bad hpre hbad
  exact ⟨by simp [Options.ParseSubstitutions, hl], ⟨msgMalformed, rfl⟩,
    by simp [Options.ParseSubstitutions, hl, BuildSubs]⟩

/-- Witness for C3: the spec's example `["NoColonHere"]` fails with the
malformed-substitution error mentioning `"NoColonHere"`, and the
substitutions mapping is left empty (prior mapping discarded, no earlier
entries). -/
theorem ParseSubstitutions_malformed_witness :
    (OptsSubsEx.ParseSubstitutions ["NoColonHere".toList]).2 =
      some (GoErr.simple (msgMalformed ++ "NoColonHere".toList)) ∧
    List.IsSuffix "NoColonHere".toList (msgMalformed ++ "NoColonHere".toList) ∧
    (OptsSubsEx.ParseSubstitutions ["NoColonHere".toList]).1.substitutions = [] :=
  have h := ParseSubstitutions_malformed OptsSubsEx [] [] "NoColonHere".toList
    (by decide) (by decide)
  ⟨h.1, h.2.1, h.2.2⟩

/-- C4: `SetRepository` is atomic on `owner` and `repo`: for every slug
parser, options value and slug, a parser failure returns the wrapped
parsing-repository-slug error carrying the underlying cause with the whole
record unchanged, and a parser success overwrites exactly `owner` and
`repo` with the parsed values and returns success. -/
theorem SetRepository_spec (p : Str → Except GoErr (Str × Str))
    (o : Options) (slug : Str) :
    (∀ e, p slug = Except.error e →
      o.SetRepository p slug = (o, some (GoErr.wrapped msgSlug e))) ∧
    (∀ org repo, p slug = Except.ok (org, repo) →
      o.SetRepository p slug = ({ o with owner := org, repo := repo }, none)) := by
  constructor
  · intro e he
    simp [Options.SetRepository, he]
  · intro org repo hok
    simp [Options.SetRepository, hok]

/-- Witness for C4: with the spec-modelled slug parser,
`SetRepository "kubernetes/release"` sets owner and repo and succeeds,
and `SetRepository "bad-slug-no-slash"` fails with the wrapped error and
returns the record unchanged. -/
theorem SetRepository_spec_witness :
    NewOptions.SetRepository ParseRepoSlugSpec "kubernetes/release".toList =
      ({ NewOptions with owner := "kubernetes".toList, repo := "release".toList },
        none) ∧
    OptsEx.SetRepository ParseRepoSlugSpec "bad-slug-no-slash".toList =
      (OptsEx, some (GoErr.wrapped msgSlug (GoErr.simple
        ("invalid repository slug: ".toList ++ "bad-slug-no-slash".toList)))) :=
  ⟨(SetRepository_spec ParseRepoSlugSpec NewOptions
      "kubernetes/release".toList).2 "kubernetes".toList "release".toList (by decide),
   (SetRepository_spec ParseRepoSlugSpec OptsEx "bad-slug-no-slash".toList).1
      (GoErr.simple ("invalid repository slug: ".toList ++
        "bad-slug-no-slash".toList)) (by decide)⟩

/-- C5: for every file system, options value and non-empty path,
`ReadTemplate` on a successful read stores the file's entire contents as
`pageTemplate` and succeeds, and on a read failure returns the wrapped
reading-page-template-text error carrying the underlying cause with the
record unchanged. -/
theorem ReadTemplate_nonempty (fs : Str → Except GoErr Str)
    (o : Options) (path : Str) (hp : path ≠ []) :
    (∀ data, fs path = Except.ok data →
      o.ReadTemplate fs path = ({ o with pageTemplate := data }, none)) ∧
    (∀ e, fs path = Except.error e →
      o.ReadTemplate fs path = (o, some (GoErr.wrapped msgTemplate e))) := by
  constructor
  · intro data hok
    simp [Options.ReadTemplate, hp, hok]
  · intro e he
    simp [Options.ReadTemplate, hp, he]

/-- Witness for C5: with the sample file system, `ReadTemplate` on the
existing template path stores its contents, and on a missing path fails
with the wrapped error, `pageTemplate` unchanged. -/
theorem ReadTemplate_nonempty_witness :
    OptsEx.ReadTemplate FsEx "/path/to/existing/file.tmpl".toList =
      ({ OptsEx with pageTemplate := "template content".toList }, none) ∧
    OptsEx.ReadTemplate FsEx "/nonexistent".toList =
      (OptsEx, some (GoErr.wrapped msgTemplate (GoErr.simple
        ("open ".toList ++ "/nonexistent".toList ++
          ": no such file or directory".toList)))) :=
  ⟨(ReadTemplate_nonempty FsEx OptsEx "/path/to/existing/file.tmpl".toList
      (by decide)).1 "template content".toList (by decide),
   (ReadTemplate_nonempty FsEx OptsEx "/nonexistent".toList (by decide)).2
      (GoErr.simple ("open ".toList ++ "/nonexistent".toList ++
        ": no such file or directory".toList)) (by decide)⟩

/-- C6: `ReadTemplate` with the empty path sets `pageTemplate` to empty
and succeeds for every options value (also when `pageTemplate` previously
held a non-empty value), and performs no file read: the result does not
depend on the file system at all. -/
theorem ReadTemplate_emptyPath (fs fsOther : Str → Except GoErr Str) (o : Options) :
    o.ReadTemplate fs [] = ({ o with pageTemplate := [] }, none) ∧
    o.ReadTemplate fs [] = o.ReadTemplate fsOther [] := by
  constructor <;> rfl

/-- C7: `NewOptions` returns a zero-valued record, each builder method
assigns exactly its argument to the corresponding field and leaves every
other field unchanged, and the chain
`NewOptions().WithTag(t).WithOwner(ow).WithRepo(r)` has exactly those
three fields set and defaults elsewhere. -/
theorem NewOptions_builders :
    (NewOptions.releaseType = [] ∧ NewOptions.assetFiles = [] ∧
     NewOptions.tag = [] ∧ NewOptions.name = [] ∧ NewOptions.owner = [] ∧
     NewOptions.repo = [] ∧ NewOptions.noMock = false ∧
     NewOptions.draft = false ∧ NewOptions.updateIfReleaseExists = false ∧
     NewOptions.pageTemplate = [] ∧ NewOptions.releaseNotesFile = [] ∧
     NewOptions.substitutions = []) ∧
    (∀ (o : Options) (v : Str),
      (o.WithReleaseType v).releaseType = v ∧
      (o.WithReleaseType v).assetFiles = o.assetFiles ∧
      (o.WithReleaseType v).tag = o.tag ∧
      (o.WithReleaseType v).name = o.name ∧
      (o.WithReleaseType v).owner = o.owner ∧
      (o.WithReleaseType v).repo = o.repo ∧
      (o.WithReleaseType v).noMock = o.noMock ∧
      (o.WithReleaseType v).draft = o.draft ∧
      (o.WithReleaseType v).updateIfReleaseExists = o.updateIfReleaseExists ∧
      (o.WithReleaseType v).pageTemplate = o.pageTemplate ∧
      (o.WithReleaseType v).releaseNotesFile = o.releaseNotesFile ∧
      (o.WithReleaseType v).substitutions = o.substitutions) ∧
    (∀ (o : Options) (v : List Str),
      (o.WithAssetFiles v).assetFiles = v ∧
      (o.WithAssetFiles v).releaseType = o.releaseType ∧
      (o.WithAssetFiles v).tag = o.tag ∧
      (o.WithAssetFiles v).name = o.name ∧
      (o.WithAssetFiles v).owner = o.owner ∧
      (o.WithAssetFiles v).repo = o.repo ∧
      (o.WithAssetFiles v).noMock = o.noMock ∧
      (o.WithAssetFiles v).draft = o.draft ∧
      (o.WithAssetFiles v).updateIfReleaseExists = o.updateIfReleaseExists ∧
      (o.WithAssetFiles v).pageTemplate = o.pageTemplate ∧
      (o.WithAssetFiles v).releaseNotesFile = o.releaseNotesFile ∧
      (o.WithAssetFiles v).substitutions = o.substitutions) ∧
    (∀ (o : Options) (v : Str),
      (o.WithTag v).tag = v ∧
      (o.WithTag v).releaseType = o.releaseType ∧
      (o.WithTag v).assetFiles = o.assetFiles ∧
      (o.WithTag v).name = o.name ∧
      (o.WithTag v).owner = o.owner ∧
      (o.WithTag v).repo = o.repo ∧
      (o.WithTag v).noMock = o.noMock ∧
      (o.WithTag v).draft = o.draft ∧
      (o.WithTag v).updateIfReleaseExists = o.updateIfReleaseExists ∧
      (o.WithTag v).pageTemplate = o.pageTemplate ∧
      (o.WithTag v).releaseNotesFile = o.releaseNotesFile ∧
      (o.WithTag v).substitutions = o.substitutions) ∧
    (∀ (o : Options) (v : Str),
      (o.WithName v).name = v ∧
      (o.WithName v).releaseType = o.releaseType ∧
      (o.WithName v).assetFiles = o.assetFiles ∧
      (o.WithName v).tag = o.tag ∧
      (o.WithName v).owner = o.owner ∧
      (o.WithName v).repo = o.repo ∧
      (o.WithName v).noMock = o.noMock ∧
      (o.WithName v).draft = o.draft ∧
      (o.WithName v).updateIfReleaseExists = o.updateIfReleaseExists ∧
      (o.WithName v).pageTemplate = o.pageTemplate ∧
      (o.WithName v).releaseNotesFile = o.releaseNotesFile ∧
      (o.WithName v).substitutions = o.substitutions) ∧
    (∀ (o : Options) (v : Str),
      (o.WithOwner v).owner = v ∧
      (o.WithOwner v).releaseType = o.releaseType ∧
      (o.WithOwner v).assetFiles = o.assetFiles ∧
      (o.WithOwner v).tag = o.tag ∧
      (o.WithOwner v).name = o.name ∧
      (o.WithOwner v).repo = o.repo ∧
      (o.WithOwner v).noMock = o.noMock ∧
      (o.WithOwner v).draft = o.draft ∧
      (o.WithOwner v).updateIfReleaseExists = o.updateIfReleaseExists ∧
      (o.WithOwner v).pageTemplate = o.pageTemplate ∧
      (o.WithOwner v).releaseNotesFile = o.releaseNotesFile ∧
      (o.WithOwner v).substitutions = o.substitutions) ∧
    (∀ (o : Options) (v : Str),
      (o.WithRepo v).repo = v ∧
      (o.WithRepo v).releaseType = o.releaseType ∧
      (o.WithRepo v).assetFiles = o.assetFiles ∧
      (o.WithRepo v).tag = o.tag ∧
      (o.WithRepo v).name = o.name ∧
      (o.WithRepo v).owner = o.owner ∧
      (o.WithRepo v).noMock = o.noMock ∧
      (o.WithRepo v).draft = o.draft ∧
      (o.WithRepo v).updateIfReleaseExists = o.updateIfReleaseExists ∧
      (o.WithRepo v).pageTemplate = o.pageTemplate ∧
      (o.WithRepo v).releaseNotesFile = o.releaseNotesFile ∧
      (o.WithRepo v).substitutions = o.substitutions) ∧
    (∀ (o : Options) (v : Bool),
      (o.WithNoMock v).noMock = v ∧
      (o.WithNoMock v).releaseType = o.releaseType ∧
      (o.WithNoMock v).assetFiles = o.assetFiles ∧
      (o.WithNoMock v).tag = o.tag ∧
      (o.WithNoMock v).name = o.name ∧
      (o.WithNoMock v).owner = o.owner ∧
      (o.WithNoMock v).repo = o.repo ∧
      (o.WithNoMock v).draft = o.draft ∧
      (o.WithNoMock v).updateIfReleaseExists = o.updateIfReleaseExists ∧
      (o.WithNoMock v).pageTemplate = o.pageTemplate ∧
      (o.WithNoMock v).releaseNotesFile = o.releaseNotesFile ∧
      (o.WithNoMock v).substitutions = o.substitutions) ∧
    (∀ (o : Options) (v : Bool),
      (o.WithDraft v).draft = v ∧
      (o.WithDraft v).releaseType = o.releaseType ∧
      (o.WithDraft v).assetFiles = o.assetFiles ∧
      (o.WithDraft v).tag = o.tag ∧
      (o.WithDraft v).name = o.name ∧
      (o.WithDraft v).owner = o.owner ∧
      (o.WithDraft v).repo = o.repo ∧
      (o.WithDraft v).noMock = o.noMock ∧
      (o.WithDraft v).updateIfReleaseExists = o.updateIfReleaseExists ∧
      (o.WithDraft v).pageTemplate = o.pageTemplate ∧
      (o.WithDraft v).releaseNotesFile = o.releaseNotesFile ∧
      (o.WithDraft v).substitutions = o.substitutions) ∧
    (∀ (o : Options) (v : Bool),
      (o.WithUpdateIfReleaseExists v).updateIfReleaseExists = v ∧
      (o.WithUpdateIfReleaseExists v).releaseType = o.releaseType ∧
      (o.WithUpdateIfReleaseExists v).assetFiles = o.assetFiles ∧
      (o.WithUpdateIfReleaseExists v).tag = o.tag ∧
      (o.WithUpdateIfReleaseExists v).name = o.name ∧
      (o.WithUpdateIfReleaseExists v).owner = o.owner ∧
      (o.WithUpdateIfReleaseExists v).repo = o.repo ∧
      (o.WithUpdateIfReleaseExists v).noMock = o.noMock ∧
      (o.WithUpdateIfReleaseExists v).draft = o.draft ∧
      (o.WithUpdateIfReleaseExists v).pageTemplate = o.pageTemplate ∧
      (o.WithUpdateIfReleaseExists v).releaseNotesFile = o.releaseNotesFile ∧
      (o.WithUpdateIfReleaseExists v).substitutions = o.substitutions) ∧
    (∀ (o : Options) (v : Str),
      (o.WithPageTemplate v).pageTemplate = v ∧
      (o.WithPageTemplate v).releaseType = o.releaseType ∧
      (o.WithPageTemplate v).assetFiles = o.assetFiles ∧
      (o.WithPageTemplate v).tag = o.tag ∧
      (o.WithPageTemplate v).name = o.name ∧
      (o.WithPageTemplate v).owner = o.owner ∧
      (o.WithPageTemplate v).repo = o.repo ∧
      (o.WithPageTemplate v).noMock = o.noMock ∧
      (o.WithPageTemplate v).draft = o.draft ∧
      (o.WithPageTemplate v).updateIfReleaseExists = o.updateIfReleaseExists ∧
      (o.WithPageTemplate v).releaseNotesFile = o.releaseNotesFile ∧
      (o.WithPageTemplate v).substitutions = o.substitutions) ∧
    (∀ (o : Options) (v : Str),
      (o.WithReleaseNotesFile v).releaseNotesFile = v ∧
      (o.WithReleaseNotesFile v).releaseType = o.releaseType ∧
      (o.WithReleaseNotesFile v).assetFiles = o.assetFiles ∧
      (o.WithReleaseNotesFile v).tag = o.tag ∧
      (o.WithReleaseNotesFile v).name = o.name ∧
      (o.WithReleaseNotesFile v).owner = o.owner ∧
      (o.WithReleaseNotesFile v).repo = o.repo ∧
      (o.WithReleaseNotesFile v).noMock = o.noMock ∧
      (o.WithReleaseNotesFile v).draft = o.draft ∧
      (o.WithReleaseNotesFile v).updateIfReleaseExists = o.updateIfReleaseExists ∧
      (o.WithReleaseNotesFile v).pageTemplate = o.pageTemplate ∧
      (o.WithReleaseNotesFile v).substitutions = o.substitutions) ∧
    (∀ (o : Options) (v : List (Str × Str)),
      (o.WithSubstitutions v).substitutions = v ∧
      (o.WithSubstitutions v).releaseType = o.releaseType ∧
      (o.WithSubstitutions v).assetFiles = o.assetFiles ∧
      (o.WithSubstitutions v).tag = o.tag ∧
      (o.WithSubstitutions v).name = o.name ∧
      (o.WithSubstitutions v).owner = o.owner ∧
      (o.WithSubstitutions v).repo = o.repo ∧
      (o.WithSubstitutions v).noMock = o.noMock ∧
      (o.WithSubstitutions v).draft = o.draft ∧
      (o.WithSubstitutions v).updateIfReleaseExists = o.updateIfReleaseExists ∧
      (o.WithSubstitutions v).pageTemplate = o.pageTemplate ∧
      (o.WithSubstitutions v).releaseNotesFile = o.releaseNotesFile) ∧
    (∀ tg ow rp, ((NewOptions.WithTag tg).WithOwner ow).WithRepo rp =
      ⟨[], [], tg, [], ow, rp, false, false, false, [], [], []⟩) := by
  refine ⟨?_, ?_, ?_, ?_, ?_, ?_, ?_, ?_, ?_, ?_, ?_, ?_, ?_, ?_⟩ <;>
    first
      | exact ⟨rfl, rfl, rfl, rfl, rfl, rfl, rfl, rfl, rfl, rfl, rfl, rfl⟩
      | exact fun o v => ⟨rfl, rfl, rfl, rfl, rfl, rfl, rfl, rfl, rfl, rfl, rfl, rfl⟩
      | exact fun tg ow rp => rfl

/-- C8: the four methods are idempotent on success: whenever a call
succeeds, running the same method again with the same input on the
resulting record succeeds and yields the same field values (with the pure
slug parser and file system of the embedding; `ReadTemplate`'s log line is
an external side effect with no field change). -/
theorem Idempotent_on_success (p : Str → Except GoErr (Str × Str))
    (fs : Str → Except GoErr Str) (o : Options) (subs : List Str) (slug path : Str) :
    ((o, o.Validate).2 = none →
      ((o, o.Validate).1, (o, o.Validate).1.Validate) = (o, o.Validate)) ∧
    ((o.ParseSubstitutions subs).2 = none →
      (o.ParseSubstitutions subs).1.ParseSubstitutions subs =
        o.ParseSubstitutions subs) ∧
    ((o.SetRepository p slug).2 = none →
      (o.SetRepository p slug).1.SetRepository p slug =
        o.SetRepository p slug) ∧
    ((o.ReadTemplate fs path).2 = none →
      (o.ReadTemplate fs path).1.ReadTemplate fs path =
        o.ReadTemplate fs path) := by
  refine ⟨fun _ => rfl, fun _ => rfl, ?_, ?_⟩
  · intro h
    cases hp : p slug with
    | error e => simp [Options.SetRepository, hp] at h
    | ok orgRepo => simp [Options.SetRepository, hp]
  · intro h
    by_cases hpath : path = []
    · subst hpath
      rfl
    · cases hf : fs path with
      | error e => simp [Options.ReadTemplate, hpath, hf] at h
      | ok d => simp [Options.ReadTemplate, hpath, hf]

/-- Witness for C8: the four idempotence implications applied at a valid
sample record, with the spec-modelled slug parser, the sample file system,
and succeeding sample inputs. -/
theorem Idempotent_on_success_witness :
    ((OptsEx, OptsEx.Validate).1, (OptsEx, OptsEx.Validate).1.Validate) =
      (OptsEx, OptsEx.Validate) ∧
    (OptsEx.ParseSubstitutions SubsEx).1.ParseSubstitutions SubsEx =
      OptsEx.ParseSubstitutions SubsEx ∧
    (OptsEx.SetRepository ParseRepoSlugSpec SlugEx).1.SetRepository
      ParseRepoSlugSpec SlugEx = OptsEx.SetRepository ParseRepoSlugSpec SlugEx ∧
    (OptsEx.ReadTemplate FsEx PathEx).1.ReadTemplate FsEx PathEx =
      OptsEx.ReadTemplate FsEx PathEx :=
  have h := Idempotent_on_success ParseRepoSlugSpec FsEx OptsEx SubsEx SlugEx PathEx
  ⟨h.1 (by decide), h.2.1 (by decide), h.2.2.1 (by decide), h.2.2.2 (by decide)⟩

/-- C9: frame property, for every input and on success and failure alike:
`Validate` modifies no field, `ParseSubstitutions` modifies only
`substitutions`, `SetRepository` modifies only `owner` and `repo`, and
`ReadTemplate` modifies only `pageTemplate`. -/
theorem Frame_methods (p : Str → Except GoErr (Str × Str))
    (fs : Str → Except GoErr Str) (o : Options) (subs : List Str) (slug path : Str) :
    ((o, o.Validate).1 = o) ∧
    ((o.ParseSubstitutions subs).1.releaseType = o.releaseType ∧
     (o.ParseSubstitutions subs).1.assetFiles = o.assetFiles ∧
     (o.ParseSubstitutions subs).1.tag = o.tag ∧
     (o.ParseSubstitutions subs).1.name = o.name ∧
     (o.ParseSubstitutions subs).1.owner = o.owner ∧
     (o.ParseSubstitutions subs).1.repo = o.repo ∧
     (o.ParseSubstitutions subs).1.noMock = o.noMock ∧
     (o.ParseSubstitutions subs).1.draft = o.draft ∧
     (o.ParseSubstitutions subs).1.updateIfReleaseExists = o.updateIfReleaseExists ∧
     (o.ParseSubstitutions subs).1.pageTemplate = o.pageTemplate ∧
     (o.ParseSubstitutions subs).1.releaseNotesFile = o.releaseNotesFile) ∧
    ((o.SetRepository p slug).1.releaseType = o.releaseType ∧
     (o.SetRepository p slug).1.assetFiles = o.assetFiles ∧
     (o.SetRepository p slug).1.tag = o.tag ∧
     (o.SetRepository p slug).1.name = o.name ∧
     (o.SetRepository p slug).1.noMock = o.noMock ∧
     (o.SetRepository p slug).1.draft = o.draft ∧
     (o.SetRepository p slug).1.updateIfReleaseExists = o.updateIfReleaseExists ∧
     (o.SetRepository p slug).1.pageTemplate = o.pageTemplate ∧
     (o.SetRepository p slug).1.releaseNotesFile = o.releaseNotesFile ∧
     (o.SetRepository p slug).1.substitutions = o.substitutions) ∧
    ((o.ReadTemplate fs path).1.releaseType = o.releaseType ∧
     (o.ReadTemplate fs path).1.assetFiles = o.assetFiles ∧
     (o.ReadTemplate fs path).1.tag = o.tag ∧
     (o.ReadTemplate fs path).1.name = o.name ∧
     (o.ReadTemplate fs path).1.owner = o.owner ∧
     (o.ReadTemplate fs path).1.repo = o.repo ∧
     (o.ReadTemplate fs path).1.noMock = o.noMock ∧
     (o.ReadTemplate fs path).1.draft = o.draft ∧
     (o.ReadTemplate fs path).1.updateIfReleaseExists = o.updateIfReleaseExists ∧
     (o.ReadTemplate fs path).1.releaseNotesFile = o.releaseNotesFile ∧
     (o.ReadTemplate fs path).1.substitutions = o.substitutions) := by
  refine ⟨rfl, ⟨rfl, rfl, rfl, rfl, rfl, rfl, rfl, rfl, rfl, rfl, rfl⟩, ?_, ?_⟩
  · cases hp : p slug with
    | error e => simp [Options.SetRepository, hp]
    | ok orgRepo => simp [Options.SetRepository, hp]
  · by_cases hpath : path = []
    · subst hpath
      exact ⟨rfl, rfl, rfl, rfl, rfl, rfl, rfl, rfl, rfl, rfl, rfl⟩
    · cases hf : fs path with
      | error e => simp [Options.ReadTemplate, hpath, hf]
      | ok d => simp [Options.ReadTemplate, hpath, hf]

/-- C10: `ParseSubstitutions` accepts empty values: a non-empty
colon-free key followed by a trailing `:` is well formed, parses to the
key mapped to the empty string, and an empty input list succeeds with an
empty substitutions mapping, discarding any prior entries. -/
theorem ParseSubstitutions_emptyValue (o : Options) (k : Str)
    (hk : k ≠ []) (hc : ':' ∉ k) :
    wellFormedSub (k ++ [':']) = true ∧
    o.ParseSubstitutions [k ++ [':']] =
      ({ o with substitutions := [(k, [])] }, none) ∧
    subFind (o.ParseSubstitutions [k ++ [':']]).1.substitutions k = some [] ∧
    o.ParseSubstitutions [] = ({ o with substitutions := [] }, none) := by
  have hsp := splitFirst_append_sep ':' k hc
  refine ⟨?_, ?_, ?_, rfl⟩
  · simp [wellFormedSub, hsp, hk]
  · simp [Options.ParseSubstitutions, ParseSubsLoop, hsp, hk, subInsert]
  · simp [Options.ParseSubstitutions, ParseSubsLoop, hsp, hk, subInsert, subFind]

/-- Witness for C10: `"KEY:"` is accepted and stores `KEY` mapped to the
empty string, and the empty input list clears a previously non-empty
substitutions mapping. -/
theorem ParseSubstitutions_emptyValue_witness :
    wellFormedSub ("KEY".toList ++ [':']) = true ∧
    OptsSubsEx.ParseSubstitutions ["KEY".toList ++ [':']] =
      ({ OptsSubsEx with substitutions := [("KEY".toList, [])] }, none) ∧
    subFind (OptsSubsEx.ParseSubstitutions
      ["KEY".toList ++ [':']]).1.substitutions "KEY".toList = some [] ∧
    OptsSubsEx.ParseSubstitutions [] = ({ OptsSubsEx with substitutions := [] }, none) :=
  have h := ParseSubstitutions_emptyValue OptsSubsEx "KEY".toList (by decide) (by decide)
  ⟨h.1, h.2.1, h.2.2.1, h.2.2.2⟩
